import Mathlib

/-!
Verification of the `cluster-utils` repository (Slurm/PBS job-script
generation utilities).

The definitions below are a shallow embedding of the Python sources:
`cluster_utils/utils.py` (the current module), `cluster_utils/__init__.py`
(the package-level variant tested by `test_init.py`) and
`cluster_utils/meta_farm.py`.  Python `int` is embedded as `Int` (or `Nat`
where the source value is evidently non-negative), Python `str` as `String`,
`None`-able parameters as `Option`, and `raise ValueError` as
`Except.error`.  Python decimal rendering of integers (`f-string`
interpolation) is embedded by the executable functions `decimalRepr` /
`intRepr` below, and `'\n'.join` / `''.join` by `join_lines` / `concat_all`.
-/

namespace ClusterUtils

/-- Decimal digit character for a single digit value, as produced by Python
string interpolation of integers. -/
def digitChar (d : Nat) : Char :=
  match d with
  | 0 => '0' | 1 => '1' | 2 => '2' | 3 => '3' | 4 => '4'
  | 5 => '5' | 6 => '6' | 7 => '7' | 8 => '8' | 9 => '9'
  | _ => '*'

/-- Fuel-driven digit expansion of a natural number, most significant digit
first.  With fuel above `n` this is the decimal expansion of `n`. -/
def natToDigitsAux : Nat → Nat → List Char
  | 0, _ => []
  | fuel + 1, n =>
    if n < 10 then [digitChar n]
    else natToDigitsAux fuel (n / 10) ++ [digitChar (n % 10)]

/-- Decimal digit list of a natural number (`str(n)` in Python). -/
def natToDigits (n : Nat) : List Char := natToDigitsAux (n + 1) n

/-- Decimal string of a natural number, embedding Python `str` /
f-string interpolation on non-negative integers. -/
def decimalRepr (n : Nat) : String := ⟨natToDigits n⟩

/-- Decimal string of an integer, embedding Python `str` / f-string
interpolation on `int` values (a leading minus sign for negatives). -/
def intRepr (i : Int) : String :=
  if i < 0 then "-" ++ decimalRepr i.natAbs else decimalRepr i.natAbs

/-- Python `f-string` formatting with `:02d`: zero-pad to width two. -/
def pad2 (n : Nat) : String :=
  if n < 10 then "0" ++ decimalRepr n else decimalRepr n

/-- Numeric value of a decimal digit character. -/
def charToDigit (c : Char) : Nat := c.toNat - 48

/-- Python `'\n'.join(lines)`. -/
def join_lines : List String → String
  | [] => ""
  | [l] => l
  | l :: ls => l ++ "\n" ++ join_lines ls

/-- Python `''.join(strings)`. -/
def concat_all : List String → String
  | [] => ""
  | s :: ss => s ++ concat_all ss

/-- Embedding of `format_walltime_str` from `cluster_utils/utils.py` (the
identical function also appears in `cluster_utils/__init__.py`).  The
Python code builds `datetime.timedelta(minutes=walltime_mins)`, whose
normalized representation has `days = floor(60*m / 86400)` and
`seconds = (60*m) mod 86400` with `0 ≤ seconds < 86400`; floor division
and floor modulus are `Int.fdiv` / `Int.fmod`. -/
def format_walltime_str (walltime_mins : Int) : String :=
  let totalSeconds : Int := walltime_mins * 60
  let days : Int := totalSeconds.fdiv 86400
  let seconds : Nat := (totalSeconds.fmod 86400).toNat
  let hours : Nat := seconds / 3600
  let minutes : Nat := (seconds / 60) % 60
  if days = 0 then
    pad2 hours ++ ":" ++ pad2 minutes ++ ":00"
  else
    intRepr days ++ "-" ++ pad2 hours ++ ":" ++ pad2 minutes ++ ":00"

/-- Reference parser for the walltime format: an eight-character
`HH:MM:SS` block with two-digit zero-padded fields and a literal `00`
seconds field, giving hours and minutes. -/
def parseHMS (l : List Char) : Option Nat :=
  match l with
  | [h1, h2, c1, m1, m2, c2, z1, z2] =>
    if h1.isDigit = true ∧ h2.isDigit = true ∧ c1 = ':' ∧ m1.isDigit = true ∧
        m2.isDigit = true ∧ c2 = ':' ∧ z1 = '0' ∧ z2 = '0' then
      some ((charToDigit h1 * 10 + charToDigit h2) * 60 +
        (charToDigit m1 * 10 + charToDigit m2))
    else none
  | _ => none

/-- Split a character list at the first dash, if any. -/
def splitDash : List Char → List Char × Option (List Char)
  | [] => ([], none)
  | c :: cs =>
    if c = '-' then ([], some cs)
    else
      let p := splitDash cs
      (c :: p.1, p.2)

/-- Reference parser for the full walltime string: an optional non-empty
all-digit day field followed by a dash, then the `HH:MM:00` block; the
result is re-interpreted as total minutes.  It accepts exactly the shapes
`HH:MM:00` and `D-HH:MM:00` claimed by the specification. -/
def parse_walltime (s : String) : Option Nat :=
  match splitDash s.data with
  | (hms, none) => parseHMS hms
  | (dcs, some hms) =>
    if dcs ≠ [] ∧ dcs.all Char.isDigit = true then
      (parseHMS hms).map
        (fun hm => (dcs.foldl (fun a c => a * 10 + charToDigit c) 0) * 1440 + hm)
    else none

/-- Keyword arguments of `get_header` in `cluster_utils/utils.py`.  The
`platform` field is `Option String`: `none` models a caller that omitted
the keyword (so that `get_header` falls back to its own default
`"slurm"` while `run_job` falls back to the module default). -/
structure HeaderArgs where
  job_name : String
  allocation : String
  output_dir : Option String := none
  walltime_mins : Int := 180
  nodes : Int := 1
  cpus : Int := 1
  mem_gb : Int := 16
  gpus : Int := 0
  gpu_mem_gb : Option Int := none
  array_len : Option Int := none
  platform : Option String := none
  deriving Repr, DecidableEq

/-- The `lines` list built by the `platform == 'slurm'` branch of
`get_header` in `cluster_utils/utils.py`, in source order: the eight
unconditional directive lines, then the output/array block guarded by
`output_dir`, then the GPU-count line guarded by `gpus > 0`, then the
GPU-memory line guarded by `gpu_mem_gb`. -/
def slurm_lines (h : HeaderArgs) : List String :=
  ["#!/bin/bash",
   "#SBATCH --time=" ++ format_walltime_str h.walltime_mins,
   "#SBATCH --nodes=" ++ intRepr h.nodes,
   "#SBATCH --ntasks-per-node=1",
   "#SBATCH --cpus-per-task=" ++ intRepr h.cpus,
   "#SBATCH --mem=" ++ intRepr h.mem_gb ++ "gb",
   "#SBATCH --job-name=" ++ h.job_name,
   "#SBATCH --account=" ++ h.allocation]
  ++ (match h.output_dir with
      | some od =>
        match h.array_len with
        | some n =>
          ["#SBATCH --output=" ++ od ++ "/%x-%j-%a.txt",
           "#SBATCH --array=1-" ++ intRepr n ++ "\n"]
        | none => ["#SBATCH --output=" ++ od ++ "/%x-%j.txt"]
      | none => [])
  ++ (if 0 < h.gpus then ["#SBATCH --gres=gpu:" ++ intRepr h.gpus] else [])
  ++ (match h.gpu_mem_gb with
      | some g => ["#SBATCH --mem-per-gpu=" ++ intRepr g ++ "gb"]
      | none => [])

/-- The local `gpu_str` of the PBS branch of `get_header` in
`cluster_utils/utils.py`. -/
def pbs_gpu_str (gpus : Int) : String :=
  if 0 < gpus then ":ngpus=" ++ intRepr gpus else ""

/-- The local `gpu_mem_str` of the PBS branch of `get_header` in
`cluster_utils/utils.py`. -/
def pbs_gpu_mem_str : Option Int → String
  | some g => ":gpu_mem=" ++ intRepr g ++ "gb"
  | none => ""

/-- The local `array_str` of the PBS branch of `get_header` in
`cluster_utils/utils.py`. -/
def pbs_array_str : Option Int → String
  | some n => "#PBS -J 1-" ++ intRepr n ++ "\n"
  | none => ""

/-- The local `output_path` of the PBS branch of `get_header` in
`cluster_utils/utils.py`.  Python interpolates an absent `output_dir`
(`None`) as the literal text `None` (the source carries a TODO about
this). -/
def pbs_output_path (output_dir : Option String) (array_len : Option Int) : String :=
  match array_len with
  | some _ => output_dir.getD "None" ++ "/^array_index^.txt"
  | none => output_dir.getD "None" ++ "/out.txt"

/-- The `#PBS -l` resource-selection line of the PBS header in
`cluster_utils/utils.py`. -/
def pbs_resource_line (h : HeaderArgs) : String :=
  "#PBS -l walltime=" ++ format_walltime_str h.walltime_mins ++
    ",select=" ++ intRepr h.nodes ++ ":ncpus=" ++ intRepr h.cpus ++
    ":mem=" ++ intRepr h.mem_gb ++ "gb" ++
    pbs_gpu_str h.gpus ++ pbs_gpu_mem_str h.gpu_mem_gb

/-- The PBS header string of `get_header` in `cluster_utils/utils.py`:
the triple-quoted f-string, whose text ends with the newline that
precedes `array_str` followed by `array_str` itself. -/
def get_header_pbs (h : HeaderArgs) : String :=
  "#!/bin/bash\n" ++ pbs_resource_line h ++
    "\n#PBS -N " ++ h.job_name ++
    "\n#PBS -A " ++ h.allocation ++
    "\n#PBS -j oe" ++
    "\n#PBS -o " ++ pbs_output_path h.output_dir h.array_len ++ "\n" ++
    pbs_array_str h.array_len

/-- Embedding of `get_header` from `cluster_utils/utils.py`: dispatch on
the `platform` string (default `"slurm"`), with `raise ValueError` for an
unrecognized platform embedded as `Except.error`. -/
def get_header (h : HeaderArgs) : Except String String :=
  let platform := h.platform.getD "slurm"
  if platform = "slurm" then .ok (join_lines (slurm_lines h))
  else if platform = "pbs" then .ok (get_header_pbs h)
  else .error ("Platform " ++ platform ++
    " not recognized; must be one of [\"slurm\", \"pbs\"]")

/-- The `job_strings` list built by `get_job_string` in
`cluster_utils/utils.py` for an array job: one arm `i)\n<command>\n;;\n`
per command, 1-based (`[f'(i+1))\n(job)\n;;\n' for i, job in
enumerate(job_array)]`). -/
def job_strings (jobs : List String) : List String :=
  jobs.enum.map (fun p => decimalRepr (p.1 + 1) ++ ")\n" ++ p.2 ++ "\n;;\n")

/-- The `case`-statement body built by `get_job_string` in
`cluster_utils/utils.py` for an array job: the joined arms wrapped in
`case <var> in ... esac` where the variable is selected by the `slurm`
flag. -/
def mk_case_body (slurm : Bool) (jobs : List String) : String :=
  let var := if slurm then "$SLURM_ARRAY_TASK_ID" else "$PBS_ARRAY_INDEX"
  "case " ++ var ++ " in\n" ++ concat_all (job_strings jobs) ++ "\nesac"

/-- Embedding of `get_job_string` from `cluster_utils/utils.py`.  The
`pre` parameter embeds the Python `prefix` keyword argument.  In the
array branch the source overwrites `header_kwargs['array_len']` with
`len(job_array)`; in the single-job branch it leaves `header_kwargs`
untouched. -/
def get_job_string (job : Option String) (job_array : Option (List String))
    (pre : String) (slurm : Bool) (h : HeaderArgs) : Except String String :=
  match job, job_array with
  | none, none => .error "Must specify either job or job_array"
  | some _, some _ => .error "Cannot specify both job and job_array"
  | some j, none =>
    (get_header h).map (fun header => header ++ "\n" ++ pre ++ "\n" ++ j ++ "\n")
  | none, some jobs =>
    let h' := { h with array_len := some (jobs.length : Int) }
    (get_header h').map
      (fun header => header ++ "\n" ++ pre ++ "\n" ++ mk_case_body slurm jobs ++ "\n")

/-- POSIX `os.path.join` for the relative path components used by
`run_job`. -/
def path_join (a b : String) : String := a ++ "/" ++ b

/-- POSIX `os.path.dirname`: everything before the last slash (the empty
string when there is no slash). -/
def path_dirname (p : String) : String :=
  match p.data.reverse.dropWhile (fun c => c ≠ '/') with
  | [] => ""
  | _ :: rest => ⟨rest.reverse⟩

/-- The `output_dir` defaulting step of `run_job` in
`cluster_utils/utils.py`: when the caller did not pass `output_dir`, set
it to `os.path.join(os.path.dirname(os.path.dirname(fname)), 'output',
uuid)`. -/
def resolve_output_dir (f uuid : String) (h : HeaderArgs) : HeaderArgs :=
  if h.output_dir.isSome then h
  else
    let autoOut := path_join (path_join (path_dirname (path_dirname f)) "output") uuid
    { h with output_dir := some autoOut }

/-- Observable outcome of `run_job` in `cluster_utils/utils.py`: the path
written, the file contents, and the external commands passed to
`os.system` (in order). -/
structure RunResult where
  fname : String
  contents : String
  commands : List String
  deriving Repr, DecidableEq

/-- Embedding of `run_job` from `cluster_utils/utils.py`.  The random
`uuid.uuid1()` value and the environment-derived `DEFAULT_JOB_DIR` /
`DEFAULT_PLATFORM` globals are passed as parameters.  The Python dict
lookup `{'slurm': 'sh', 'pbs': 'pbs'}[platform]` raises `KeyError` for
any other platform, embedded as `Except.error`; filesystem effects
(directory creation, the file write) are reflected in the returned
`RunResult`. -/
def run_job (fname : Option String) (dry_run : Bool) (uuid : String)
    (defaultJobDir defaultPlatform : String)
    (job : Option String) (job_array : Option (List String))
    (pre : String) (slurm : Bool) (h : HeaderArgs) : Except String RunResult :=
  let platform := h.platform.getD defaultPlatform
  let fnameE : Except String String :=
    match fname with
    | some f => .ok f
    | none =>
      if platform = "slurm" then
        .ok (path_join (path_join (path_join defaultJobDir h.job_name) "jobs")
          (uuid ++ ".sh"))
      else if platform = "pbs" then
        .ok (path_join (path_join (path_join defaultJobDir h.job_name) "jobs")
          (uuid ++ ".pbs"))
      else .error ("KeyError: " ++ platform)
  fnameE.bind (fun f =>
    (get_job_string job job_array pre slurm (resolve_output_dir f uuid h)).map
      (fun s =>
        { fname := f
          contents := s
          commands :=
            if dry_run then []
            else [(if platform = "slurm" then "sbatch " else "qsub ") ++ f] }))

/-- The list comprehension inside the `table_string` expression of
`make_farm` in `cluster_utils/meta_farm.py`: one row
`<1-based index> <case string>` per case. -/
def table_rows (case_list : List String) : List String :=
  case_list.enum.map (fun p => decimalRepr (p.1 + 1) ++ " " ++ p.2)

/-- The `table_string` written to `table.dat` by `make_farm` in
`cluster_utils/meta_farm.py`: the rows joined with `'\n'.join`. -/
def make_farm_table_string (case_list : List String) : String :=
  join_lines (table_rows case_list)

/-- Embedding of `get_header` from `cluster_utils/__init__.py` (the
package-level variant exercised by `test_init.py`).  It dispatches on a
boolean `slurm` flag (default `False`); its Slurm branch is a single
triple-quoted f-string that emits `#SBATCH --gres=gpu:{gpus}`
unconditionally, interpolates `cpus` into `--ntasks-per-node`, and leaves
a blank line when `gpu_mem_str` is empty; its PBS branch matches the
`utils.py` one except for a trailing space after `#PBS -j oe`. -/
def init_get_header (job_name allocation : String) (output_dir : Option String)
    (walltime_mins : Int) (nodes cpus mem_gb : Int) (gpus : Int)
    (gpu_mem_gb array_len : Option Int) (slurm : Bool) : String :=
  let walltime_str := format_walltime_str walltime_mins
  if slurm then
    let array_str := match array_len with
      | some n => "#SBATCH --array=1-" ++ intRepr n ++ "\n"
      | none => ""
    let gpu_mem_str := match gpu_mem_gb with
      | some g => "#SBATCH --mem-per-gpu=" ++ intRepr g ++ "gb"
      | none => ""
    "#!/bin/bash\n#SBATCH --time=" ++ walltime_str ++
      "\n#SBATCH --nodes=" ++ intRepr nodes ++
      "\n#SBATCH --ntasks-per-node=" ++ intRepr cpus ++
      "\n#SBATCH --gres=gpu:" ++ intRepr gpus ++
      "\n#SBATCH --mem=" ++ intRepr mem_gb ++ "gb\n" ++
      gpu_mem_str ++
      "\n#SBATCH --job-name=" ++ job_name ++
      "\n#SBATCH --account=" ++ allocation ++
      "\n#SBATCH --output=" ++ output_dir.getD "None" ++ "/%x-%j.txt\n" ++
      array_str
  else
    let output_path := match array_len with
      | some _ => output_dir.getD "None" ++ "/^array_index^.txt"
      | none => output_dir.getD "None" ++ "/out.txt"
    let array_str := match array_len with
      | some n => "#PBS -J 1-" ++ intRepr n ++ "\n"
      | none => ""
    let gpu_str := if 0 < gpus then ":ngpus=" ++ intRepr gpus else ""
    let gpu_mem_str := match gpu_mem_gb with
      | some g => ":gpu_mem=" ++ intRepr g ++ "gb"
      | none => ""
    "#!/bin/bash\n#PBS -l walltime=" ++ walltime_str ++
      ",select=" ++ intRepr nodes ++ ":ncpus=" ++ intRepr cpus ++
      ":mem=" ++ intRepr mem_gb ++ "gb" ++ gpu_str ++ gpu_mem_str ++
      "\n#PBS -N " ++ job_name ++
      "\n#PBS -A " ++ allocation ++
      "\n#PBS -j oe " ++
      "\n#PBS -o " ++ output_path ++ "\n" ++
      array_str

/-! ### Lemmas about decimal digit rendering -/

theorem data_append (a b : String) : (a ++ b).data = a.data ++ b.data := rfl

theorem data_mk (l : List Char) : (String.mk l).data = l := rfl

theorem natToDigitsAux_stable (f₁ : Nat) :
    ∀ n f₂, n < f₁ → n < f₂ → natToDigitsAux f₁ n = natToDigitsAux f₂ n := by
  induction f₁ with
  | zero => intro n f₂ h; omega
  | succ g ih =>
    intro n f₂ h₁ h₂
    match f₂, h₂ with
    | f + 1, _ =>
      simp only [natToDigitsAux]
      by_cases hn : n < 10
      · simp [hn]
      · simp only [hn, if_false]
        have hdiv : n / 10 < n := Nat.div_lt_self (by omega) (by omega)
        rw [ih (n / 10) f (by omega) (by omega)]

theorem natToDigits_eq (n : Nat) :
    natToDigits n =
      if n < 10 then [digitChar n]
      else natToDigits (n / 10) ++ [digitChar (n % 10)] := by
  show natToDigitsAux (n + 1) n = _
  simp only [natToDigitsAux]
  by_cases hn : n < 10
  · simp [hn]
  · simp only [hn, if_false]
    have hdiv : n / 10 < n := Nat.div_lt_self (by omega) (by omega)
    rw [natToDigitsAux_stable n (n / 10) (n / 10 + 1) (by omega) (by omega)]
    rfl

theorem natToDigits_of_lt_ten {n : Nat} (h : n < 10) :
    natToDigits n = [digitChar n] := by
  rw [natToDigits_eq]; simp [h]

theorem digitChar_isDigit {d : Nat} (h : d < 10) : (digitChar d).isDigit = true := by
  interval_cases d <;> decide

theorem charToDigit_digitChar {d : Nat} (h : d < 10) :
    charToDigit (digitChar d) = d := by
  interval_cases d <;> decide

theorem digitChar_ne_zero {d : Nat} (h₀ : 0 < d) (h₁ : d < 10) :
    digitChar d ≠ '0' := by
  interval_cases d <;> decide

theorem digitChar_ne_dash {d : Nat} (h : d < 10) : digitChar d ≠ '-' := by
  interval_cases d <;> decide

theorem natToDigits_ne_nil (n : Nat) : natToDigits n ≠ [] := by
  rw [natToDigits_eq]
  by_cases hn : n < 10 <;> simp [hn]

theorem natToDigits_all_digit (n : Nat) :
    ∀ c ∈ natToDigits n, c.isDigit = true := by
  induction n using Nat.strong_induction_on with
  | _ n ih =>
    rw [natToDigits_eq]
    by_cases hn : n < 10
    · simp only [hn, if_true, List.mem_singleton]
      rintro c rfl
      exact digitChar_isDigit hn
    · simp only [hn, if_false, List.mem_append, List.mem_singleton]
      rintro c (hc | rfl)
      · exact ih (n / 10) (Nat.div_lt_self (by omega) (by omega)) c hc
      · exact digitChar_isDigit (Nat.mod_lt _ (by omega))

theorem foldl_natToDigits (n : Nat) :
    ∀ a : Nat,
      (natToDigits n).foldl (fun acc c => acc * 10 + charToDigit c) a =
        a * 10 ^ (natToDigits n).length + n := by
  induction n using Nat.strong_induction_on with
  | _ n ih =>
    intro a
    rw [natToDigits_eq]
    by_cases hn : n < 10
    · simp [hn, List.foldl, charToDigit_digitChar hn]
    · simp only [hn, if_false, List.foldl_append, List.length_append,
        List.length_singleton, List.foldl_cons, List.foldl_nil]
      rw [ih (n / 10) (Nat.div_lt_self (by omega) (by omega)) a]
      rw [charToDigit_digitChar (Nat.mod_lt _ (by omega))]
      rw [pow_succ]
      have : n / 10 * 10 + n % 10 = n := by omega
      ring_nf
      omega

theorem natToDigits_head_ne_zero {n : Nat} (h : 0 < n) :
    (natToDigits n).head? ≠ some '0' := by
  induction n using Nat.strong_induction_on with
  | _ n ih =>
    rw [natToDigits_eq]
    by_cases hn : n < 10
    · simp only [hn, if_true, List.head?_cons]
      intro hc
      exact digitChar_ne_zero h hn (Option.some.inj hc)
    · simp only [hn, if_false, List.head?_append]
      have hne := natToDigits_ne_nil (n / 10)
      have hd : (natToDigits (n / 10)).head?.isSome := by
        cases hx : natToDigits (n / 10) with
        | nil => exact absurd hx hne
        | cons c cs => simp
      intro hc
      have h10 : 0 < n / 10 := by omega
      have := ih (n / 10) (Nat.div_lt_self (by omega) (by omega)) h10
      cases hx : (natToDigits (n / 10)).head? with
      | none => rw [hx] at hd; simp at hd
      | some c =>
        rw [hx] at hc
        simp only [Option.or_some] at hc
        rw [hx] at this
        exact this hc

theorem natToDigits_two_digits {n : Nat} (h₁ : 10 ≤ n) (h₂ : n < 100) :
    natToDigits n = [digitChar (n / 10), digitChar (n % 10)] := by
  rw [natToDigits_eq]
  have : ¬ n < 10 := by omega
  simp only [this, if_false]
  rw [natToDigits_of_lt_ten (by omega : n / 10 < 10)]
  rfl

theorem pad2_data {n : Nat} (h : n < 100) :
    (pad2 n).data = [digitChar (n / 10), digitChar (n % 10)] := by
  unfold pad2
  by_cases hn : n < 10
  · simp only [hn, if_true, data_append, decimalRepr, data_mk,
      natToDigits_of_lt_ten hn]
    have : n / 10 = 0 := by omega
    have h2 : n % 10 = n := by omega
    rw [this, h2]
    rfl
  · simp only [hn, if_false, decimalRepr, data_mk]
    exact natToDigits_two_digits (by omega) h

/-! ### The walltime formatter on non-negative inputs -/

theorem intRepr_ofNat (n : Nat) : intRepr (n : Int) = decimalRepr n := by
  unfold intRepr
  have : ¬ ((n : Int) < 0) := by omega
  simp [this]

theorem format_walltime_ofNat (m : Nat) :
    format_walltime_str (m : Int) =
      if m / 1440 = 0 then
        pad2 (m % 1440 / 60) ++ ":" ++ pad2 (m % 60) ++ ":00"
      else
        decimalRepr (m / 1440) ++ "-" ++ pad2 (m % 1440 / 60) ++ ":" ++
          pad2 (m % 60) ++ ":00" := by
  have hmul : ((m : Int) * 60) = ((m * 60 : Nat) : Int) := by push_cast; ring
  have hfdiv : ((m : Int) * 60).fdiv 86400 = ((m * 60 / 86400 : Nat) : Int) := by
    rw [hmul]; exact (Int.ofNat_fdiv (m * 60) 86400).symm
  have hfmod : ((m : Int) * 60).fmod 86400 = ((m * 60 % 86400 : Nat) : Int) := by
    rw [hmul]; exact (Int.ofNat_fmod (m * 60) 86400).symm
  simp only [format_walltime_str]
  rw [hfdiv, hfmod]
  simp only [Int.toNat_ofNat]
  have hdays : m * 60 / 86400 = m / 1440 := by omega
  have hhours : m * 60 % 86400 / 3600 = m % 1440 / 60 := by omega
  have hmins : m * 60 % 86400 / 60 % 60 = m % 60 := by omega
  rw [hdays, hhours, hmins]
  have hzero : (((m / 1440 : Nat) : Int) = 0) ↔ m / 1440 = 0 := by
    exact_mod_cast Int.natCast_eq_zero
  by_cases h : m / 1440 = 0
  · simp [h]
  · simp only [hzero, h, if_false]
    rw [intRepr_ofNat]

theorem splitDash_no_dash {l : List Char} (h : ∀ c ∈ l, c ≠ '-') :
    splitDash l = (l, none) := by
  induction l with
  | nil => rfl
  | cons c cs ih =>
    simp only [splitDash]
    have hc : c ≠ '-' := h c (List.mem_cons_self c cs)
    simp only [hc, if_false]
    rw [ih (fun d hd => h d (List.mem_cons_of_mem c hd))]

theorem splitDash_append {l₁ l₂ : List Char} (h : ∀ c ∈ l₁, c ≠ '-') :
    splitDash (l₁ ++ '-' :: l₂) = (l₁, some l₂) := by
  induction l₁ with
  | nil => simp [splitDash]
  | cons c cs ih =>
    simp only [List.cons_append, splitDash]
    have hc : c ≠ '-' := h c (List.mem_cons_self c cs)
    simp only [hc, if_false]
    rw [show cs.append ('-' :: l₂) = cs ++ '-' :: l₂ from rfl,
      ih (fun d hd => h d (List.mem_cons_of_mem c hd))]

theorem parseHMS_pads {h mi : Nat} (hh : h < 100) (hm : mi < 100) :
    parseHMS ((pad2 h).data ++ ':' :: ((pad2 mi).data ++ [':', '0', '0'])) =
      some (h * 60 + mi) := by
  rw [pad2_data hh, pad2_data hm]
  have d1 : h / 10 < 10 := by omega
  have d2 : h % 10 < 10 := by omega
  have d3 : mi / 10 < 10 := by omega
  have d4 : mi % 10 < 10 := by omega
  simp only [List.cons_append, List.nil_append, parseHMS,
    digitChar_isDigit d1, digitChar_isDigit d2, digitChar_isDigit d3,
    digitChar_isDigit d4, charToDigit_digitChar d1, charToDigit_digitChar d2,
    charToDigit_digitChar d3, charToDigit_digitChar d4, and_true, true_and,
    and_self, if_true]
  congr 1
  omega

theorem hms_data_eq (h mi : Nat) :
    (pad2 h ++ ":" ++ pad2 mi ++ ":00").data =
      (pad2 h).data ++ ':' :: ((pad2 mi).data ++ [':', '0', '0']) := by
  simp only [data_append]
  simp

theorem isDigit_ne_dash {c : Char} (h : c.isDigit = true) : c ≠ '-' := by
  rintro rfl; simp [Char.isDigit] at h

theorem isDigit_ne_colon {c : Char} (h : c.isDigit = true) : c ≠ ':' := by
  rintro rfl; simp [Char.isDigit] at h

theorem hms_no_dash (h mi : Nat) (hh : h < 100) (hm : mi < 100) :
    ∀ c ∈ (pad2 h).data ++ ':' :: ((pad2 mi).data ++ [':', '0', '0']), c ≠ '-' := by
  intro c hc
  rw [pad2_data hh, pad2_data hm] at hc
  have d1 : h / 10 < 10 := by omega
  have d2 : h % 10 < 10 := by omega
  have d3 : mi / 10 < 10 := by omega
  have d4 : mi % 10 < 10 := by omega
  have hc' : c = digitChar (h / 10) ∨ c = digitChar (h % 10) ∨ c = ':' ∨
      c = digitChar (mi / 10) ∨ c = digitChar (mi % 10) ∨ c = '0' := by
    rw [show ([digitChar (h / 10), digitChar (h % 10)] ++ ':' ::
        ([digitChar (mi / 10), digitChar (mi % 10)] ++ [':', '0', '0'])) =
      [digitChar (h / 10), digitChar (h % 10), ':', digitChar (mi / 10),
        digitChar (mi % 10), ':', '0', '0'] from rfl] at hc
    simp only [List.mem_cons, List.not_mem_nil, or_false] at hc
    tauto
  rcases hc' with rfl | rfl | rfl | rfl | rfl | rfl
  exacts [digitChar_ne_dash d1, digitChar_ne_dash d2, by decide,
    digitChar_ne_dash d3, digitChar_ne_dash d4, by decide]

theorem parse_walltime_case_none {s : String} {l : List Char}
    (h : splitDash s.data = (l, none)) : parse_walltime s = parseHMS l := by
  unfold parse_walltime
  rw [h]

theorem parse_walltime_case_some {s : String} {l₁ l₂ : List Char}
    (h : splitDash s.data = (l₁, some l₂)) :
    parse_walltime s =
      if l₁ ≠ [] ∧ l₁.all Char.isDigit = true then
        (parseHMS l₂).map
          (fun hm => (l₁.foldl (fun a c => a * 10 + charToDigit c) 0) * 1440 + hm)
      else none := by
  unfold parse_walltime
  rw [h]

theorem parse_walltime_roundtrip (m : Nat) :
    parse_walltime (format_walltime_str (m : Int)) = some m := by
  have hh : m % 1440 / 60 < 24 := by omega
  have hm : m % 60 < 60 := by omega
  rw [format_walltime_ofNat]
  by_cases hd : m / 1440 = 0
  · simp only [hd, if_true]
    rw [parse_walltime_case_none
      (by rw [hms_data_eq];
          exact splitDash_no_dash (hms_no_dash _ _ (by omega) (by omega)))]
    rw [parseHMS_pads (by omega) (by omega)]
    congr 1
    omega
  · simp only [hd, if_false]
    have hdata :
        (decimalRepr (m / 1440) ++ "-" ++ pad2 (m % 1440 / 60) ++ ":" ++
            pad2 (m % 60) ++ ":00").data =
          natToDigits (m / 1440) ++ '-' ::
            ((pad2 (m % 1440 / 60)).data ++ ':' ::
              ((pad2 (m % 60)).data ++ [':', '0', '0'])) := by
      simp [data_append, decimalRepr, data_mk, List.append_assoc]
    rw [parse_walltime_case_some
      (by rw [hdata];
          exact splitDash_append (fun c hc =>
            isDigit_ne_dash (natToDigits_all_digit _ c hc)))]
    rw [if_pos ⟨natToDigits_ne_nil _, by
      rw [List.all_eq_true]; exact fun c hc => natToDigits_all_digit _ c hc⟩]
    rw [parseHMS_pads (by omega) (by omega)]
    simp only [Option.map_some']
    rw [foldl_natToDigits]
    simp only [Nat.zero_mul, Nat.zero_add]
    congr 1
    omega

theorem format_walltime_length_of_lt (m : Nat) (h : m < 1440) :
    (format_walltime_str (m : Int)).data.length = 8 := by
  rw [format_walltime_ofNat]
  have hd : m / 1440 = 0 := by omega
  simp only [hd, if_true]
  rw [hms_data_eq]
  rw [pad2_data (by omega : m % 1440 / 60 < 100), pad2_data (by omega : m % 60 < 100)]
  rfl

theorem format_walltime_head_of_ge (m : Nat) (h : 1440 ≤ m) :
    (format_walltime_str (m : Int)).data.head? ≠ some '0' := by
  rw [format_walltime_ofNat]
  have hd : ¬ m / 1440 = 0 := by omega
  simp only [hd, if_false]
  simp only [data_append, decimalRepr, data_mk, List.append_assoc,
    List.head?_append]
  have hne := natToDigits_ne_nil (m / 1440)
  have hz := natToDigits_head_ne_zero (show 0 < m / 1440 by omega)
  cases hx : (natToDigits (m / 1440)).head? with
  | none =>
    cases hy : natToDigits (m / 1440) with
    | nil => exact absurd hy hne
    | cons c cs => rw [hy] at hx; simp at hx
  | some c =>
    rw [hx] at hz
    simp only [Option.or_some]
    exact hz

/-- C1: for every non-negative integer number of minutes, the walltime
formatter's output re-parses (as days/hours/minutes, via the strict
shape-checking `parse_walltime`) to exactly the input, the string is the
eight-character `HH:MM:00` form below 24 hours, the day field is unpadded
(no leading zero) at or above 24 hours, and the four concrete examples
from the specification hold. -/
theorem claim_C1_walltime_roundtrip :
    (∀ m : Nat, parse_walltime (format_walltime_str (m : Int)) = some m)
    ∧ format_walltime_str 0 = "00:00:00"
    ∧ format_walltime_str 60 = "01:00:00"
    ∧ format_walltime_str 1440 = "1-00:00:00"
    ∧ format_walltime_str 1441 = "1-00:01:00"
    ∧ (∀ m : Nat, m < 1440 → (format_walltime_str (m : Int)).data.length = 8)
    ∧ (∀ m : Nat, 1440 ≤ m → (format_walltime_str (m : Int)).data.head? ≠ some '0') :=
  ⟨parse_walltime_roundtrip, by decide, by decide, by decide, by decide,
    format_walltime_length_of_lt, format_walltime_head_of_ge⟩

/-- Witness for C1: the unpadded-day-field conjunct applied at the
concrete input 1500 minutes. -/
theorem claim_C1_walltime_roundtrip_witness :
    (format_walltime_str ((1500 : Nat) : Int)).data.head? ≠ some '0' :=
  claim_C1_walltime_roundtrip.2.2.2.2.2.2 1500 (by decide)

/-! ### The walltime formatter on negative inputs (claim C8) -/

/-- Counterexample for C8: the claim says a negative input fails with an
invalid-argument condition, but `format_walltime_str` is total on the
source's `timedelta` semantics and at `-1` returns the string
`-1-23:59:00` instead of failing. -/
theorem claim_C8_counterexample : format_walltime_str (-1) = "-1-23:59:00" := by
  decide

/-- C8 (amended): negative minutes are not rejected; the formatter
returns the floor-division decomposition `D-HH:MM:00` whose day field is
negative and which still satisfies `D*1440 + HH*60 + MM = m`. -/
theorem claim_C8_negative_walltime (m : Int) (h : m < 0) :
    ∃ (d : Int) (hh mm : Nat), d < 0 ∧
      format_walltime_str m =
        intRepr d ++ "-" ++ pad2 hh ++ ":" ++ pad2 mm ++ ":00" ∧
      d * 1440 + hh * 60 + mm = m ∧ hh < 24 ∧ mm < 60 := by
  have hpos : (0 : Int) < 86400 := by decide
  have hfm : 0 ≤ (m * 60).fmod 86400 := Int.fmod_nonneg' (m * 60) hpos
  have hfl : (m * 60).fmod 86400 < 86400 := Int.fmod_lt_of_pos (m * 60) hpos
  have heq : 86400 * (m * 60).fdiv 86400 + (m * 60).fmod 86400 = m * 60 :=
    Int.fdiv_add_fmod (m * 60) 86400
  have hr : (((m * 60).fmod 86400).toNat : Int) = (m * 60).fmod 86400 :=
    Int.toNat_of_nonneg hfm
  refine ⟨(m * 60).fdiv 86400, ((m * 60).fmod 86400).toNat / 3600,
    ((m * 60).fmod 86400).toNat / 60 % 60, ?_, ?_, ?_, ?_, ?_⟩
  · omega
  · have hd : ¬ ((m * 60).fdiv 86400 = 0) := by omega
    simp only [format_walltime_str, hd, if_false]
  · omega
  · omega
  · omega

/-- Witness for C8's amended theorem at the concrete input `-1`. -/
theorem claim_C8_negative_walltime_witness :
    ∃ (d : Int) (hh mm : Nat), d < 0 ∧
      format_walltime_str (-1) =
        intRepr d ++ "-" ++ pad2 hh ++ ":" ++ pad2 mm ++ ":00" ∧
      d * 1440 + hh * 60 + mm = (-1 : Int) ∧ hh < 24 ∧ mm < 60 :=
  claim_C8_negative_walltime (-1) (by decide)

/-! ### The PBS header at the specification's example inputs (claim C2) -/

/-- The C2 example arguments for the `utils.py` header builder. -/
def c2Args : HeaderArgs :=
  { job_name := "example_job", allocation := "allocation_name",
    output_dir := some "output_dir", walltime_mins := 60, nodes := 1,
    cpus := 1, platform := some "pbs" }

/-- C2: evaluating both PBS header builders at the claimed inputs.  The
output line is `#PBS -o output_dir/out.txt` — it contains no scheduler
placeholder tokens — and the combined-stream directive is a separate
`#PBS -j oe` line, so the produced header differs from the one asserted
by the claim and by the repository's own test
(`test_init.py::test_get_header`), which expects the output path
`output_dir/$PBS_JOBNAME-$PBS_JOBID.txt`. -/
theorem claim_C2_pbs_header_eval :
    get_header c2Args =
      .ok ("#!/bin/bash\n#PBS -l walltime=01:00:00,select=1:ncpus=1:mem=16gb\n" ++
        "#PBS -N example_job\n#PBS -A allocation_name\n#PBS -j oe\n" ++
        "#PBS -o output_dir/out.txt\n")
    ∧ init_get_header "example_job" "allocation_name" (some "output_dir")
        60 1 1 16 0 none none false =
      "#!/bin/bash\n#PBS -l walltime=01:00:00,select=1:ncpus=1:mem=16gb\n" ++
        "#PBS -N example_job\n#PBS -A allocation_name\n#PBS -j oe \n" ++
        "#PBS -o output_dir/out.txt\n"
    ∧ init_get_header "example_job" "allocation_name" (some "output_dir")
        60 1 1 16 0 none none false ≠
      "#!/bin/bash\n#PBS -l walltime=01:00:00,select=1:ncpus=1:mem=16gb\n" ++
        "#PBS -N example_job\n#PBS -A allocation_name\n" ++
        "#PBS -j oe -o output_dir/$PBS_JOBNAME-$PBS_JOBID.txt\n" :=
  ⟨by rfl, by decide, by decide⟩

/-! ### The job-string assembler (claims C4, C5, C9) -/

/-- A small concrete argument record used by witnesses. -/
def exampleArgs : HeaderArgs :=
  { job_name := "j", allocation := "a", output_dir := some "o" }

theorem get_job_string_array_eq (jobs : List String) (pre : String)
    (slurm : Bool) (h : HeaderArgs) :
    get_job_string none (some jobs) pre slurm h =
      (get_header { h with array_len := some (jobs.length : Int) }).map
        (fun header => header ++ "\n" ++ pre ++ "\n" ++
          mk_case_body slurm jobs ++ "\n") := rfl

/-- C4: for a job array of any length `n`, `get_job_string` synthesizes
a body that is the scheduler-specific array-task-index variable wrapped
in `case <var> in ... esac`, containing exactly `n` arms, arm `i`
(1-based) being the index pattern `i)`, the `i`-th command, and the `;;`
delimiter; and the header is built with the list's length as the array
length. -/
theorem claim_C4_case_body (jobs : List String) (pre : String) (slurm : Bool)
    (h : HeaderArgs) :
    get_job_string none (some jobs) pre slurm h =
      (get_header { h with array_len := some (jobs.length : Int) }).map
        (fun header => header ++ "\n" ++ pre ++ "\n" ++
          ("case " ++
            (if slurm then "$SLURM_ARRAY_TASK_ID" else "$PBS_ARRAY_INDEX") ++
            " in\n" ++ concat_all (job_strings jobs) ++ "\nesac") ++ "\n")
    ∧ (job_strings jobs).length = jobs.length
    ∧ (∀ i c, jobs[i]? = some c →
        (job_strings jobs)[i]? =
          some (decimalRepr (i + 1) ++ ")\n" ++ c ++ "\n;;\n")) := by
  refine ⟨rfl, ?_, ?_⟩
  · simp [job_strings, List.enum_eq_enumFrom]
  · intro i c hc
    unfold job_strings
    rw [List.getElem?_map, List.enum_eq_enumFrom, List.getElem?_enumFrom, hc]
    simp

/-- Witness for C4: the arm-shape conjunct evaluated at a concrete
two-command array, first arm. -/
theorem claim_C4_case_body_witness :
    (job_strings ["c1", "c2"])[0]? =
      some (decimalRepr (0 + 1) ++ ")\n" ++ "c1" ++ "\n;;\n") :=
  (claim_C4_case_body ["c1", "c2"] "" true exampleArgs).2.2 0 "c1" rfl

theorem string_head_ne {a b : String} (h : a.data.head? ≠ b.data.head?) :
    a ≠ b := fun he => h (by rw [he])

theorem head_platform_msg (p : String) :
    ("Platform " ++ p ++
      " not recognized; must be one of [\"slurm\", \"pbs\"]").data.head? =
      some 'P' := by
  simp only [data_append, List.append_assoc, List.head?_append]
  rfl

theorem get_header_error_shape {h : HeaderArgs} {e : String}
    (he : get_header h = .error e) :
    ∃ p, e = "Platform " ++ p ++
      " not recognized; must be one of [\"slurm\", \"pbs\"]" := by
  unfold get_header at he
  by_cases h1 : h.platform.getD "slurm" = "slurm"
  · simp [h1] at he
  · by_cases h2 : h.platform.getD "slurm" = "pbs"
    · simp [h1, h2] at he
    · simp only [h1, h2, if_false] at he
      exact ⟨h.platform.getD "slurm", (Except.error.inj he).symm⟩

theorem platform_msg_ne_must (p : String) :
    ("Platform " ++ p ++
      " not recognized; must be one of [\"slurm\", \"pbs\"]") ≠
      "Must specify either job or job_array" := by
  apply string_head_ne
  rw [head_platform_msg]
  decide

theorem platform_msg_ne_cannot (p : String) :
    ("Platform " ++ p ++
      " not recognized; must be one of [\"slurm\", \"pbs\"]") ≠
      "Cannot specify both job and job_array" := by
  apply string_head_ne
  rw [head_platform_msg]
  decide

/-- C5: `get_job_string` raises the invalid-argument error when neither
of `job`/`job_array` is supplied and when both are; when exactly one is
supplied, neither of those two errors can be produced (any remaining
error is the unrecognized-platform one from the header builder). -/
theorem claim_C5_job_xor_job_array (pre : String) (slurm : Bool) (h : HeaderArgs) :
    get_job_string none none pre slurm h =
      .error "Must specify either job or job_array"
    ∧ (∀ j jobs, get_job_string (some j) (some jobs) pre slurm h =
        .error "Cannot specify both job and job_array")
    ∧ (∀ j e, get_job_string (some j) none pre slurm h = .error e →
        e ≠ "Must specify either job or job_array" ∧
        e ≠ "Cannot specify both job and job_array")
    ∧ (∀ jobs e, get_job_string none (some jobs) pre slurm h = .error e →
        e ≠ "Must specify either job or job_array" ∧
        e ≠ "Cannot specify both job and job_array") := by
  refine ⟨rfl, fun j jobs => rfl, ?_, ?_⟩
  · intro j e he
    simp only [get_job_string] at he
    cases hh : get_header h with
    | ok s => rw [hh] at he; simp [Except.map] at he
    | error e' =>
      rw [hh] at he
      simp only [Except.map] at he
      obtain ⟨p, hp⟩ := get_header_error_shape hh
      cases he
      rw [hp]
      exact ⟨platform_msg_ne_must p, platform_msg_ne_cannot p⟩
  · intro jobs e he
    simp only [get_job_string] at he
    cases hh : get_header { h with array_len := some (jobs.length : Int) } with
    | ok s => rw [hh] at he; simp [Except.map] at he
    | error e' =>
      rw [hh] at he
      simp only [Except.map] at he
      obtain ⟨p, hp⟩ := get_header_error_shape hh
      cases he
      rw [hp]
      exact ⟨platform_msg_ne_must p, platform_msg_ne_cannot p⟩

/-- Witness for C5: with a single job and an unrecognized platform the
only produced error is the platform one, distinct from both
invalid-argument messages. -/
theorem claim_C5_job_xor_job_array_witness :
    ("Platform xyz not recognized; must be one of [\"slurm\", \"pbs\"]" ≠
      "Must specify either job or job_array")
    ∧ ("Platform xyz not recognized; must be one of [\"slurm\", \"pbs\"]" ≠
      "Cannot specify both job and job_array") :=
  (claim_C5_job_xor_job_array "" true
      { job_name := "j", allocation := "a", platform := some "xyz" }).2.2.1
    "c" _ rfl

/-- C9: in the array branch, the array length fed to the header builder
is `len(job_array)`, overwriting whatever `array_len` the caller put in
the header arguments (the result does not depend on the caller's value);
and the resulting array-range directive reads `1-n` for `n` the number
of case arms, in both scheduler dialects. -/
theorem claim_C9_array_len_override (jobs : List String) (pre : String)
    (slurm : Bool) (h : HeaderArgs) (a₁ a₂ : Option Int) :
    (get_job_string none (some jobs) pre slurm { h with array_len := a₁ } =
      get_job_string none (some jobs) pre slurm { h with array_len := a₂ })
    ∧ (get_job_string none (some jobs) pre slurm h =
        (get_header { h with array_len := some (jobs.length : Int) }).map
          (fun header =>
            header ++ "\n" ++ pre ++ "\n" ++ mk_case_body slurm jobs ++ "\n"))
    ∧ (∀ od, h.output_dir = some od →
        ("#SBATCH --array=1-" ++ intRepr (jobs.length : Int) ++ "\n") ∈
          slurm_lines { h with array_len := some (jobs.length : Int) })
    ∧ pbs_array_str (some (jobs.length : Int)) =
        "#PBS -J 1-" ++ intRepr (jobs.length : Int) ++ "\n" := by
  refine ⟨rfl, rfl, ?_, rfl⟩
  intro od hod
  simp [slurm_lines, hod, List.mem_append]

/-- Witness for C9: the array directive membership at a concrete
two-command array. -/
theorem claim_C9_array_len_override_witness :
    ("#SBATCH --array=1-" ++ intRepr ((["x", "y"].length : Nat) : Int) ++ "\n") ∈
      slurm_lines { exampleArgs with
        array_len := some ((["x", "y"].length : Nat) : Int) } :=
  (claim_C9_array_len_override ["x", "y"] "" true exampleArgs none none).2.2.1
    "o" rfl

/-! ### The farm table file (claim C6) -/

theorem join_lines_data_ne_nil (r : String) (rs : List String)
    (h : r.data ≠ []) : (join_lines (r :: rs)).data ≠ [] := by
  cases rs with
  | nil => exact h
  | cons r2 rest =>
    show ((r ++ "\n") ++ join_lines (r2 :: rest)).data ≠ []
    simp only [data_append]
    intro hx
    rcases List.append_eq_nil.mp hx with ⟨hy, -⟩
    rcases List.append_eq_nil.mp hy with ⟨hz, -⟩
    exact h hz

theorem join_lines_getLast_ne (rows : List String)
    (hne : rows ≠ [])
    (h : ∀ r ∈ rows, r.data ≠ [] ∧ r.data.getLast? ≠ some '\n') :
    (join_lines rows).data.getLast? ≠ some '\n' := by
  induction rows with
  | nil => exact absurd rfl hne
  | cons r rs ih =>
    cases rs with
    | nil => exact (h r (List.mem_cons_self r [])).2
    | cons r2 rest =>
      have hr2 := h r2 (List.mem_cons_of_mem r (List.mem_cons_self r2 rest))
      have hJne : (join_lines (r2 :: rest)).data ≠ [] :=
        join_lines_data_ne_nil r2 rest hr2.1
      have hJ := ih (by simp)
        (fun x hx => h x (List.mem_cons_of_mem r hx))
      show (((r ++ "\n") ++ join_lines (r2 :: rest)).data).getLast? ≠ some '\n'
      rw [data_append, List.getLast?_append]
      cases hx : (join_lines (r2 :: rest)).data.getLast? with
      | none =>
        exact absurd (List.getLast?_eq_none_iff.mp hx) hJne
      | some x =>
        rw [hx] at hJ
        simpa using hJ

theorem row_data_ne_nil (i : Nat) (c : String) :
    (decimalRepr (i + 1) ++ " " ++ c).data ≠ [] := by
  simp only [data_append]
  intro hx
  rcases List.append_eq_nil.mp hx with ⟨hy, -⟩
  rcases List.append_eq_nil.mp hy with ⟨hz, -⟩
  exact natToDigits_ne_nil (i + 1) hz

theorem row_getLast_ne (i : Nat) (c : String)
    (hc : c.data.getLast? ≠ some '\n') :
    (decimalRepr (i + 1) ++ " " ++ c).data.getLast? ≠ some '\n' := by
  simp only [data_append, List.getLast?_append]
  cases hx : c.data.getLast? with
  | none =>
    simp only [hx, Option.none_or]
    intro hy
    have : (" ".data).getLast? = some ' ' := rfl
    rw [this] at hy
    simp at hy
  | some x =>
    rw [hx] at hc
    simpa using hc

/-- Counterexample for C6: at the one-case list `["a"]` the table string
is `"1 a"` with no terminating newline, contradicting the claim that
every row, the final one included, is newline-terminated. -/
theorem claim_C6_counterexample :
    make_farm_table_string ["a"] = "1 a" ∧
      make_farm_table_string ["a"] ≠ "1 a\n" :=
  ⟨by decide, by decide⟩

/-- C6 (amended): the table file contains exactly one row
`<1-based index> <case>` per case, in list order, the rows joined by
single newlines with no trailing newline appended after the final row
(so the final line is not newline-terminated whenever the case strings
themselves do not end in a newline). -/
theorem claim_C6_table_rows (case_list : List String) :
    make_farm_table_string case_list = join_lines (table_rows case_list)
    ∧ (table_rows case_list).length = case_list.length
    ∧ (∀ i c, case_list[i]? = some c →
        (table_rows case_list)[i]? = some (decimalRepr (i + 1) ++ " " ++ c))
    ∧ (case_list ≠ [] → (∀ c ∈ case_list, c.data.getLast? ≠ some '\n') →
        (make_farm_table_string case_list).data.getLast? ≠ some '\n') := by
  refine ⟨rfl, ?_, ?_, ?_⟩
  · simp [table_rows, List.enum_eq_enumFrom]
  · intro i c hc
    unfold table_rows
    rw [List.getElem?_map, List.enum_eq_enumFrom, List.getElem?_enumFrom, hc]
    simp
  · intro hne hc
    apply join_lines_getLast_ne
    · intro hx
      apply hne
      have : (table_rows case_list).length = case_list.length := by
        simp [table_rows, List.enum_eq_enumFrom]
      rw [hx] at this
      exact List.length_eq_zero.mp this.symm
    · intro r hr
      unfold table_rows at hr
      rcases List.mem_map.mp hr with ⟨p, hp, rfl⟩
      have hmem : p.2 ∈ case_list := by
        have := List.mem_map_of_mem Prod.snd hp
        rwa [List.enum_eq_enumFrom, List.enumFrom_map_snd] at this
      exact ⟨row_data_ne_nil p.1 p.2, row_getLast_ne p.1 p.2 (hc p.2 hmem)⟩

/-- Witness for C6's amended theorem: the row-shape conjunct at the
one-case list. -/
theorem claim_C6_table_rows_witness :
    (table_rows ["a"])[0]? = some (decimalRepr (0 + 1) ++ " " ++ "a") :=
  (claim_C6_table_rows ["a"]).2.2.1 0 "a" rfl

/-! ### The submission runner (claim C7) -/

theorem except_bind_ok {ε α β : Type} {x : Except ε α} {g : α → Except ε β}
    {r : β} (h : x.bind g = .ok r) : ∃ a, x = .ok a ∧ g a = .ok r := by
  cases x with
  | error e => exact absurd h (by simp [Except.bind])
  | ok a => exact ⟨a, rfl, h⟩

theorem except_map_ok {ε α β : Type} {x : Except ε α} {g : α → β} {r : β}
    (h : x.map g = .ok r) : ∃ a, x = .ok a ∧ g a = r := by
  cases x with
  | error e => exact absurd h (by simp [Except.map])
  | ok a =>
    refine ⟨a, rfl, ?_⟩
    simpa [Except.map] using h

/-- C7: whenever `run_job` succeeds, in dry-run mode it performs no
external process invocation, otherwise exactly one — `sbatch`/`qsub`
selected by the platform, applied to the path of the file it wrote; and
the written contents are exactly the output of `get_job_string` on the
same arguments (whenever `output_dir` is explicitly given, so that the
arguments passed through unchanged). -/
theorem claim_C7_run_job_effects (fname : Option String) (dry_run : Bool)
    (uuid defaultJobDir defaultPlatform : String) (job : Option String)
    (job_array : Option (List String)) (pre : String) (slurm : Bool)
    (h : HeaderArgs) (r : RunResult)
    (hok : run_job fname dry_run uuid defaultJobDir defaultPlatform
      job job_array pre slurm h = .ok r) :
    (dry_run = true → r.commands = [])
    ∧ (dry_run = false → r.commands =
        [(if h.platform.getD defaultPlatform = "slurm" then "sbatch "
          else "qsub ") ++ r.fname])
    ∧ (h.output_dir.isSome = true →
        Except.ok r.contents = get_job_string job job_array pre slurm h) := by
  simp only [run_job] at hok
  obtain ⟨f, hf, hbody⟩ := except_bind_ok hok
  obtain ⟨s, hs, hr⟩ := except_map_ok hbody
  subst hr
  refine ⟨?_, ?_, ?_⟩
  · intro hd; simp [hd]
  · intro hd; simp [hd]
  · intro hod
    unfold resolve_output_dir at hs
    rw [if_pos hod] at hs
    simpa using hs.symm

/-- The concrete job-file contents used by C7's witness. -/
def c7Contents : String :=
  "#!/bin/bash\n#SBATCH --time=03:00:00\n#SBATCH --nodes=1\n" ++
  "#SBATCH --ntasks-per-node=1\n#SBATCH --cpus-per-task=1\n" ++
  "#SBATCH --mem=16gb\n#SBATCH --job-name=j\n#SBATCH --account=a\n" ++
  "#SBATCH --output=o/%x-%j.txt\n\nc\n"

/-- The concrete header arguments used by C7's witness. -/
def c7Args : HeaderArgs :=
  { job_name := "j", allocation := "a", output_dir := some "o",
    platform := some "slurm" }

/-- Witness for C7: a non-dry run at concrete arguments issues exactly
the single `sbatch` command on the written file. -/
theorem claim_C7_run_job_effects_witness :
    (({ fname := "f.sh", contents := c7Contents,
        commands := ["sbatch f.sh"] } : RunResult)).commands =
      [(if c7Args.platform.getD "slurm" = "slurm" then "sbatch "
        else "qsub ") ++
        ({ fname := "f.sh", contents := c7Contents,
           commands := ["sbatch f.sh"] } : RunResult).fname] :=
  (claim_C7_run_job_effects (some "f.sh") false "u" "d" "slurm" (some "c")
    none "" true c7Args
    { fname := "f.sh", contents := c7Contents, commands := ["sbatch f.sh"] }
    (by rfl)).2.1 rfl

/-! ### Occurrence machinery for directive lines and clauses -/

theorem not_prefix_of_getElem_ne {p l : List Char} (i : Nat)
    (hip : i < p.length) (hne : p[i]? ≠ l[i]?) : ¬ p <+: l := by
  rintro ⟨t, rfl⟩
  exact hne (List.getElem?_append_left hip).symm

theorem not_prefix_str1 (p : List Char) (a b : String) (i : Nat)
    (hip : i < p.length) (hia : i < a.data.length)
    (hne : p[i]? ≠ a.data[i]?) : ¬ p <+: (a ++ b).data := by
  apply not_prefix_of_getElem_ne i hip
  rw [data_append, List.getElem?_append_left hia]
  exact hne

theorem not_prefix_str2 (p : List Char) (a b c : String) (i : Nat)
    (hip : i < p.length) (hia : i < a.data.length)
    (hne : p[i]? ≠ a.data[i]?) : ¬ p <+: (a ++ b ++ c).data := by
  apply not_prefix_of_getElem_ne i hip
  have h1 : ((a ++ b ++ c).data)[i]? = a.data[i]? := by
    rw [data_append, data_append]
    rw [List.getElem?_append_left
      (by rw [List.length_append]; omega : i < (a.data ++ b.data).length)]
    exact List.getElem?_append_left hia
  rw [h1]
  exact hne

theorem prefix_str2 (a b c : String) : a.data <+: (a ++ b ++ c).data :=
  ⟨b.data ++ c.data, by rw [data_append, data_append, List.append_assoc]⟩

/-- The Slurm `lines` list never contains a line starting with the
array directive when `output_dir` or `array_len` is absent. -/
theorem slurm_no_array_line (h : HeaderArgs)
    (hcon : h.output_dir = none ∨ h.array_len = none) :
    ∀ l ∈ slurm_lines h, ¬ ("#SBATCH --array=".data <+: l.data) := by
  unfold slurm_lines
  refine List.forall_mem_append.mpr ⟨List.forall_mem_append.mpr
    ⟨List.forall_mem_append.mpr ⟨?_, ?_⟩, ?_⟩, ?_⟩
  · simp only [List.forall_mem_cons]
    refine ⟨by decide,
      not_prefix_str1 _ "#SBATCH --time=" _ 10 (by decide) (by decide) (by decide),
      not_prefix_str1 _ "#SBATCH --nodes=" _ 10 (by decide) (by decide) (by decide),
      by decide,
      not_prefix_str1 _ "#SBATCH --cpus-per-task=" _ 10 (by decide) (by decide)
        (by decide),
      not_prefix_str2 _ "#SBATCH --mem=" _ _ 10 (by decide) (by decide) (by decide),
      not_prefix_str1 _ "#SBATCH --job-name=" _ 10 (by decide) (by decide)
        (by decide),
      not_prefix_str1 _ "#SBATCH --account=" _ 11 (by decide) (by decide)
        (by decide), List.forall_mem_nil _⟩
  · rcases hcon with ho | ha
    · rw [ho]
      simp
    · rcases ho : h.output_dir with _ | od
      · simp
      · rw [ha]
        simp only [List.forall_mem_cons]
        exact ⟨not_prefix_str2 _ "#SBATCH --output=" _ _ 10 (by decide)
          (by decide) (by decide), List.forall_mem_nil _⟩
  · by_cases hg : 0 < h.gpus
    · simp only [hg, if_true, List.forall_mem_cons]
      exact ⟨not_prefix_str1 _ "#SBATCH --gres=gpu:" _ 10 (by decide) (by decide)
        (by decide), List.forall_mem_nil _⟩
    · simp [hg]
  · rcases hm : h.gpu_mem_gb with _ | g
    · simp
    · simp only [List.forall_mem_cons]
      exact ⟨not_prefix_str2 _ "#SBATCH --mem-per-gpu=" _ _ 10 (by decide)
        (by decide) (by decide), List.forall_mem_nil _⟩

/-- The Slurm `lines` list never contains a line starting with the
output directive when `output_dir` is absent. -/
theorem slurm_no_output_line (h : HeaderArgs) (ho : h.output_dir = none) :
    ∀ l ∈ slurm_lines h, ¬ ("#SBATCH --output=".data <+: l.data) := by
  unfold slurm_lines
  rw [ho]
  refine List.forall_mem_append.mpr ⟨List.forall_mem_append.mpr
    ⟨List.forall_mem_append.mpr ⟨?_, List.forall_mem_nil _⟩, ?_⟩, ?_⟩
  · simp only [List.forall_mem_cons]
    refine ⟨by decide,
      not_prefix_str1 _ "#SBATCH --time=" _ 10 (by decide) (by decide) (by decide),
      not_prefix_str1 _ "#SBATCH --nodes=" _ 10 (by decide) (by decide) (by decide),
      by decide,
      not_prefix_str1 _ "#SBATCH --cpus-per-task=" _ 10 (by decide) (by decide)
        (by decide),
      not_prefix_str2 _ "#SBATCH --mem=" _ _ 10 (by decide) (by decide) (by decide),
      not_prefix_str1 _ "#SBATCH --job-name=" _ 10 (by decide) (by decide)
        (by decide),
      not_prefix_str1 _ "#SBATCH --account=" _ 10 (by decide) (by decide)
        (by decide), List.forall_mem_nil _⟩
  · by_cases hg : 0 < h.gpus
    · simp only [hg, if_true, List.forall_mem_cons]
      exact ⟨not_prefix_str1 _ "#SBATCH --gres=gpu:" _ 10 (by decide) (by decide)
        (by decide), List.forall_mem_nil _⟩
    · simp [hg]
  · rcases hm : h.gpu_mem_gb with _ | g
    · simp
    · simp only [List.forall_mem_cons]
      exact ⟨not_prefix_str2 _ "#SBATCH --mem-per-gpu=" _ _ 10 (by decide)
        (by decide) (by decide), List.forall_mem_nil _⟩

/-- The Slurm `lines` list never contains a line starting with the
GPU-count (`--gres=gpu:`) directive when `gpus` is not positive. -/
theorem slurm_no_gres_line (h : HeaderArgs) (hg : ¬ 0 < h.gpus) :
    ∀ l ∈ slurm_lines h, ¬ ("#SBATCH --gres=gpu:".data <+: l.data) := by
  unfold slurm_lines
  refine List.forall_mem_append.mpr ⟨List.forall_mem_append.mpr
    ⟨List.forall_mem_append.mpr ⟨?_, ?_⟩, ?_⟩, ?_⟩
  · simp only [List.forall_mem_cons]
    refine ⟨by decide,
      not_prefix_str1 _ "#SBATCH --time=" _ 10 (by decide) (by decide) (by decide),
      not_prefix_str1 _ "#SBATCH --nodes=" _ 10 (by decide) (by decide) (by decide),
      by decide,
      not_prefix_str1 _ "#SBATCH --cpus-per-task=" _ 10 (by decide) (by decide)
        (by decide),
      not_prefix_str2 _ "#SBATCH --mem=" _ _ 10 (by decide) (by decide) (by decide),
      not_prefix_str1 _ "#SBATCH --job-name=" _ 10 (by decide) (by decide)
        (by decide),
      not_prefix_str1 _ "#SBATCH --account=" _ 10 (by decide) (by decide)
        (by decide), List.forall_mem_nil _⟩
  · rcases ho : h.output_dir with _ | od
    · simp
    · rcases ha : h.array_len with _ | n
      · simp only [List.forall_mem_cons]
        exact ⟨not_prefix_str2 _ "#SBATCH --output=" _ _ 10 (by decide)
          (by decide) (by decide), List.forall_mem_nil _⟩
      · simp only [List.forall_mem_cons]
        exact ⟨not_prefix_str2 _ "#SBATCH --output=" _ _ 10 (by decide)
          (by decide) (by decide),
          not_prefix_str2 _ "#SBATCH --array=1-" _ _ 10 (by decide)
            (by decide) (by decide), List.forall_mem_nil _⟩
  · simp [hg]
  · rcases hm : h.gpu_mem_gb with _ | g
    · simp
    · simp only [List.forall_mem_cons]
      exact ⟨not_prefix_str2 _ "#SBATCH --mem-per-gpu=" _ _ 10 (by decide)
        (by decide) (by decide), List.forall_mem_nil _⟩

/-- The Slurm `lines` list never contains a line starting with the
GPU-memory (`--mem-per-gpu=`) directive when `gpu_mem_gb` is absent. -/
theorem slurm_no_mpg_line (h : HeaderArgs) (hm : h.gpu_mem_gb = none) :
    ∀ l ∈ slurm_lines h, ¬ ("#SBATCH --mem-per-gpu=".data <+: l.data) := by
  unfold slurm_lines
  rw [hm]
  refine List.forall_mem_append.mpr ⟨List.forall_mem_append.mpr
    ⟨List.forall_mem_append.mpr ⟨?_, ?_⟩, ?_⟩, List.forall_mem_nil _⟩
  · simp only [List.forall_mem_cons]
    refine ⟨by decide,
      not_prefix_str1 _ "#SBATCH --time=" _ 10 (by decide) (by decide) (by decide),
      not_prefix_str1 _ "#SBATCH --nodes=" _ 10 (by decide) (by decide) (by decide),
      by decide,
      not_prefix_str1 _ "#SBATCH --cpus-per-task=" _ 10 (by decide) (by decide)
        (by decide),
      not_prefix_str2 _ "#SBATCH --mem=" _ _ 13 (by decide) (by decide) (by decide),
      not_prefix_str1 _ "#SBATCH --job-name=" _ 10 (by decide) (by decide)
        (by decide),
      not_prefix_str1 _ "#SBATCH --account=" _ 10 (by decide) (by decide)
        (by decide), List.forall_mem_nil _⟩
  · rcases ho : h.output_dir with _ | od
    · simp
    · rcases ha : h.array_len with _ | n
      · simp only [List.forall_mem_cons]
        exact ⟨not_prefix_str2 _ "#SBATCH --output=" _ _ 10 (by decide)
          (by decide) (by decide), List.forall_mem_nil _⟩
      · simp only [List.forall_mem_cons]
        exact ⟨not_prefix_str2 _ "#SBATCH --output=" _ _ 10 (by decide)
          (by decide) (by decide),
          not_prefix_str2 _ "#SBATCH --array=1-" _ _ 10 (by decide)
            (by decide) (by decide), List.forall_mem_nil _⟩
  · by_cases hg : 0 < h.gpus
    · simp only [hg, if_true, List.forall_mem_cons]
      exact ⟨not_prefix_str1 _ "#SBATCH --gres=gpu:" _ 10 (by decide) (by decide)
        (by decide), List.forall_mem_nil _⟩
    · simp [hg]

/-- C10: in the `utils.py` Slurm header, the array-range directive is
emitted exactly when both `output_dir` and `array_len` are given, and
the output-path directive exactly when `output_dir` is given — in
particular both are omitted when `output_dir` is `None`, even with
`array_len` set. -/
theorem claim_C10_slurm_output_guard (h : HeaderArgs) :
    ((∃ l ∈ slurm_lines h, "#SBATCH --array=".data <+: l.data) ↔
      (h.output_dir ≠ none ∧ h.array_len ≠ none))
    ∧ ((∃ l ∈ slurm_lines h, "#SBATCH --output=".data <+: l.data) ↔
      h.output_dir ≠ none) := by
  constructor
  · constructor
    · rintro ⟨l, hl, hp⟩
      by_contra hcon
      rw [not_and_or] at hcon
      have hcon' : h.output_dir = none ∨ h.array_len = none := by
        rcases hcon with hc | hc
        · exact Or.inl (not_not.mp hc)
        · exact Or.inr (not_not.mp hc)
      exact slurm_no_array_line h hcon' l hl hp
    · rintro ⟨ho, ha⟩
      rcases hod : h.output_dir with _ | od
      · exact absurd hod ho
      rcases han : h.array_len with _ | n
      · exact absurd han ha
      refine ⟨"#SBATCH --array=1-" ++ intRepr n ++ "\n", ?_, ?_⟩
      · unfold slurm_lines
        rw [hod, han]
        simp [List.mem_append]
      · exact (show ("#SBATCH --array=".data <+: "#SBATCH --array=1-".data)
          by decide).trans (prefix_str2 "#SBATCH --array=1-" (intRepr n) "\n")
  · constructor
    · rintro ⟨l, hl, hp⟩
      by_contra hcon
      exact slurm_no_output_line h hcon l hl hp
    · intro ho
      rcases hod : h.output_dir with _ | od
      · exact absurd hod ho
      rcases han : h.array_len with _ | n
      · refine ⟨"#SBATCH --output=" ++ od ++ "/%x-%j.txt", ?_, ?_⟩
        · unfold slurm_lines
          rw [hod, han]
          simp [List.mem_append]
        · exact prefix_str2 "#SBATCH --output=" od "/%x-%j.txt"
      · refine ⟨"#SBATCH --output=" ++ od ++ "/%x-%j-%a.txt", ?_, ?_⟩
        · unfold slurm_lines
          rw [hod, han]
          simp [List.mem_append]
        · exact prefix_str2 "#SBATCH --output=" od "/%x-%j-%a.txt"

/-- Witness for C10: at concrete arguments with an output directory and
array length, the array directive occurs among the header lines. -/
theorem claim_C10_slurm_output_guard_witness :
    ∃ l ∈ slurm_lines { exampleArgs with array_len := some 3 },
      "#SBATCH --array=".data <+: l.data :=
  (claim_C10_slurm_output_guard
    { exampleArgs with array_len := some 3 }).1.mpr ⟨by decide, by decide⟩

/-! ### Character classes of rendered numbers and substring machinery -/

theorem pad2_all_digit (n : Nat) : ∀ c ∈ (pad2 n).data, c.isDigit = true := by
  unfold pad2
  by_cases hn : n < 10
  · simp only [hn, if_true, data_append]
    intro c hc
    rcases List.mem_append.mp hc with hc | hc
    · simp only [List.mem_cons, List.not_mem_nil, or_false] at hc
      subst hc
      decide
    · exact natToDigits_all_digit n c hc
  · simp only [hn, if_false]
    exact natToDigits_all_digit n

theorem intRepr_chars (i : Int) :
    ∀ c ∈ (intRepr i).data, c.isDigit = true ∨ c = '-' := by
  unfold intRepr
  by_cases h : i < 0
  · simp only [h, if_true, data_append]
    intro c hc
    rcases List.mem_append.mp hc with hc | hc
    · simp only [List.mem_cons, List.not_mem_nil, or_false] at hc
      subst hc
      right; rfl
    · exact Or.inl (natToDigits_all_digit _ c hc)
  · simp only [h, if_false]
    exact fun c hc => Or.inl (natToDigits_all_digit _ c hc)

theorem format_chars (m : Int) :
    ∀ c ∈ (format_walltime_str m).data,
      c.isDigit = true ∨ c = ':' ∨ c = '-' := by
  intro c
  simp only [format_walltime_str]
  by_cases hd : (m * 60).fdiv 86400 = 0 <;>
    simp only [hd, if_true, if_false, data_append] <;> intro hc
  · rcases List.mem_append.mp hc with hc1 | hc1
    · rcases List.mem_append.mp hc1 with hc2 | hc2
      · rcases List.mem_append.mp hc2 with hc3 | hc3
        · exact Or.inl (pad2_all_digit _ c hc3)
        · simp only [List.mem_cons, List.not_mem_nil, or_false] at hc3
          subst hc3
          exact Or.inr (Or.inl rfl)
      · exact Or.inl (pad2_all_digit _ c hc2)
    · simp only [List.mem_cons, List.not_mem_nil, or_false] at hc1
      rcases hc1 with rfl | rfl | rfl
      · exact Or.inr (Or.inl rfl)
      · exact Or.inl (by decide)
      · exact Or.inl (by decide)
  · rcases List.mem_append.mp hc with hc1 | hc1
    · rcases List.mem_append.mp hc1 with hc2 | hc2
      · rcases List.mem_append.mp hc2 with hc3 | hc3
        · rcases List.mem_append.mp hc3 with hc4 | hc4
          · rcases List.mem_append.mp hc4 with hc5 | hc5
            · rcases intRepr_chars _ c hc5 with h' | h'
              · exact Or.inl h'
              · exact Or.inr (Or.inr h')
            · simp only [List.mem_cons, List.not_mem_nil, or_false] at hc5
              subst hc5
              exact Or.inr (Or.inr rfl)
          · exact Or.inl (pad2_all_digit _ c hc4)
        · simp only [List.mem_cons, List.not_mem_nil, or_false] at hc3
          subst hc3
          exact Or.inr (Or.inl rfl)
      · exact Or.inl (pad2_all_digit _ c hc2)
    · simp only [List.mem_cons, List.not_mem_nil, or_false] at hc1
      rcases hc1 with rfl | rfl | rfl
      · exact Or.inr (Or.inl rfl)
      · exact Or.inl (by decide)
      · exact Or.inl (by decide)

theorem mem_of_infix {p l : List Char} (h : p <:+: l) {c : Char}
    (hc : c ∈ p) : c ∈ l := by
  obtain ⟨s, t, rfl⟩ := h
  simp [List.mem_append, hc]

/-- No position in `l` holds `x` immediately followed by `y`. -/
def noPair (x y : Char) (l : List Char) : Prop :=
  ∀ i : Nat, ¬ (l[i]? = some x ∧ l[i + 1]? = some y)

theorem noPair_of_not_mem_x {x y : Char} {l : List Char} (h : x ∉ l) :
    noPair x y l :=
  fun _ hp => h (List.getElem?_mem hp.1)

theorem noPair_of_not_mem_y {x y : Char} {l : List Char} (h : y ∉ l) :
    noPair x y l :=
  fun _ hp => h (List.getElem?_mem hp.2)

theorem noPair_append {x y : Char} {a b : List Char}
    (ha : noPair x y a) (hb : noPair x y b)
    (hbound : a.getLast? = some x → b.head? ≠ some y) :
    noPair x y (a ++ b) := by
  intro i hp
  obtain ⟨h1, h2⟩ := hp
  rcases Nat.lt_or_ge i a.length with hi | hi
  · rcases Nat.lt_or_ge (i + 1) a.length with hi1 | hi1
    · rw [List.getElem?_append_left hi] at h1
      rw [List.getElem?_append_left hi1] at h2
      exact ha i ⟨h1, h2⟩
    · have hieq : i + 1 = a.length := by omega
      rw [List.getElem?_append_left hi] at h1
      rw [List.getElem?_append_right hi1] at h2
      have hlast : a.getLast? = some x := by
        rw [List.getLast?_eq_getElem?]
        have : a.length - 1 = i := by omega
        rw [this]
        exact h1
      have hhead : b.head? = some y := by
        rw [List.head?_eq_getElem?]
        have : i + 1 - a.length = 0 := by omega
        rw [this] at h2
        exact h2
      exact hbound hlast hhead
  · rw [List.getElem?_append_right hi] at h1
    rw [List.getElem?_append_right (by omega : a.length ≤ i + 1)] at h2
    have : i + 1 - a.length = (i - a.length) + 1 := by omega
    rw [this] at h2
    exact hb (i - a.length) ⟨h1, h2⟩

/-- Executable check for `noPair`. -/
def noPairB (x y : Char) : List Char → Bool
  | [] => true
  | [_] => true
  | c1 :: c2 :: rest => (!(c1 = x && c2 = y)) && noPairB x y (c2 :: rest)

theorem noPair_of_noPairB {x y : Char} :
    ∀ {l : List Char}, noPairB x y l = true → noPair x y l := by
  intro l
  induction l with
  | nil => intro _ i hp; simp at hp
  | cons c1 rest ih =>
    cases rest with
    | nil =>
      intro _ i hp
      obtain ⟨h1, h2⟩ := hp
      match i, h1, h2 with
      | 0, _, h2 => simp at h2
      | j + 1, h1, _ => simp at h1
    | cons c2 rest2 =>
      intro hB i hp
      simp only [noPairB, Bool.and_eq_true, Bool.not_eq_true'] at hB
      obtain ⟨hB1, hB2⟩ := hB
      obtain ⟨h1, h2⟩ := hp
      match i, h1, h2 with
      | 0, h1, h2 =>
        simp only [List.getElem?_cons_zero, Option.some.injEq] at h1
        simp only [List.getElem?_cons_succ, List.getElem?_cons_zero,
          Option.some.injEq] at h2
        subst h1; subst h2
        simp at hB1
      | j + 1, h1, h2 =>
        rw [List.getElem?_cons_succ] at h1
        rw [List.getElem?_cons_succ] at h2
        exact ih hB2 j ⟨h1, h2⟩

theorem infix_pair {p l : List Char} {x y : Char} {i : Nat}
    (hinf : p <:+: l) (hx : p[i]? = some x) (hy : p[i + 1]? = some y) :
    ∃ j, l[j]? = some x ∧ l[j + 1]? = some y := by
  obtain ⟨s, t, rfl⟩ := hinf
  have hip : i < p.length := (List.getElem?_eq_some_iff.mp hx).1
  have hip1 : i + 1 < p.length := (List.getElem?_eq_some_iff.mp hy).1
  refine ⟨s.length + i, ?_, ?_⟩
  · rw [List.getElem?_append_left
      (by rw [List.length_append]; omega : s.length + i < (s ++ p).length)]
    rw [List.getElem?_append_right (by omega : s.length ≤ s.length + i)]
    have : s.length + i - s.length = i := by omega
    rw [this]
    exact hx
  · rw [List.getElem?_append_left
      (by rw [List.length_append]; omega : s.length + i + 1 < (s ++ p).length)]
    rw [List.getElem?_append_right (by omega : s.length ≤ s.length + i + 1)]
    have : s.length + i + 1 - s.length = i + 1 := by omega
    rw [this]
    exact hy

theorem noPair_no_infix {p l : List Char} {x y : Char} {i : Nat}
    (hx : p[i]? = some x) (hy : p[i + 1]? = some y) (hnp : noPair x y l) :
    ¬ p <:+: l := by
  intro hinf
  obtain ⟨j, h1, h2⟩ := infix_pair hinf hx hy
  exact hnp j ⟨h1, h2⟩

theorem data_empty : ("" : String).data = [] := rfl

theorem head_append_list {a b : List Char} {c : Char}
    (ha : a.head? = some c) : (a ++ b).head? = some c := by
  rw [List.head?_append, ha]
  rfl

theorem getLast_append_list {a b : List Char} {c : Char}
    (hb : b.getLast? = some c) : (a ++ b).getLast? = some c := by
  rw [List.getLast?_append, hb]
  rfl

theorem natToDigits_getLast (n : Nat) :
    (natToDigits n).getLast? = some (digitChar (n % 10)) := by
  rw [natToDigits_eq]
  by_cases hn : n < 10
  · simp only [hn, if_true]
    have : n % 10 = n := by omega
    rw [this]
    rfl
  · simp only [hn, if_false, List.getLast?_append]
    rfl

theorem intRepr_getLast (i : Int) :
    ∃ d, (intRepr i).data.getLast? = some d ∧ d.isDigit = true := by
  refine ⟨digitChar (i.natAbs % 10), ?_, digitChar_isDigit (by omega)⟩
  unfold intRepr
  by_cases h : i < 0
  · simp only [h, if_true, data_append]
    exact getLast_append_list (natToDigits_getLast _)
  · simp only [h, if_false]
    exact natToDigits_getLast _

theorem char_not_in_intRepr {c : Char} (i : Int) (h1 : c.isDigit = false)
    (h3 : c ≠ '-') : c ∉ (intRepr i).data := by
  intro hc
  rcases intRepr_chars i c hc with hd | hd
  · rw [hd] at h1; cases h1
  · exact h3 hd

theorem char_not_in_format {c : Char} (m : Int) (h1 : c.isDigit = false)
    (h2 : c ≠ ':') (h3 : c ≠ '-') : c ∉ (format_walltime_str m).data := by
  intro hc
  rcases format_chars m c hc with hd | hd | hd
  · rw [hd] at h1; cases h1
  · exact h2 hd
  · exact h3 hd

/-- With `gpus` not positive, the PBS resource-selection line contains no
occurrence of the `:ngpus=` clause: no position holds the letter `n`
immediately followed by `g`. -/
theorem pbs_no_ngpus (h : HeaderArgs) (hg : ¬ 0 < h.gpus) :
    ¬ (":ngpus=".data <:+: (pbs_resource_line h).data) := by
  apply noPair_no_infix (i := 1) (x := 'n') (y := 'g') (by decide) (by decide)
  unfold pbs_resource_line pbs_gpu_str
  rw [if_neg hg]
  have h1 : noPair 'n' 'g' ("#PBS -l walltime=".data) :=
    noPair_of_noPairB (by decide)
  have h2 : noPair 'n' 'g'
      ("#PBS -l walltime=".data ++ (format_walltime_str h.walltime_mins).data) :=
    noPair_append h1
      (noPair_of_not_mem_x (char_not_in_format _ (by decide) (by decide) (by decide)))
      (fun hlast => absurd hlast (by decide))
  have h3 : noPair 'n' 'g'
      (("#PBS -l walltime=".data ++ (format_walltime_str h.walltime_mins).data) ++
        ",select=".data) :=
    noPair_append h2 (noPair_of_not_mem_x (by decide))
      (fun _ hh => absurd hh (by decide))
  have h4 : noPair 'n' 'g' (_ ++ (intRepr h.nodes).data) :=
    noPair_append h3
      (noPair_of_not_mem_x (char_not_in_intRepr _ (by decide) (by decide)))
      (fun hlast => by
        rw [getLast_append_list
          (by decide : (",select=".data).getLast? = some '=')] at hlast
        exact absurd hlast (by decide))
  have h5 : noPair 'n' 'g' (_ ++ ":ncpus=".data) :=
    noPair_append h4 (noPair_of_noPairB (by decide))
      (fun _ hh => absurd hh (by decide))
  have h6 : noPair 'n' 'g' (_ ++ (intRepr h.cpus).data) :=
    noPair_append h5
      (noPair_of_not_mem_x (char_not_in_intRepr _ (by decide) (by decide)))
      (fun hlast => by
        rw [getLast_append_list
          (by decide : (":ncpus=".data).getLast? = some '=')] at hlast
        exact absurd hlast (by decide))
  have h7 : noPair 'n' 'g' (_ ++ ":mem=".data) :=
    noPair_append h6 (noPair_of_not_mem_x (by decide))
      (fun _ hh => absurd hh (by decide))
  have h8 : noPair 'n' 'g' (_ ++ (intRepr h.mem_gb).data) :=
    noPair_append h7
      (noPair_of_not_mem_x (char_not_in_intRepr _ (by decide) (by decide)))
      (fun hlast => by
        rw [getLast_append_list
          (by decide : (":mem=".data).getLast? = some '=')] at hlast
        exact absurd hlast (by decide))
  have h9 : noPair 'n' 'g' (_ ++ "gb".data) :=
    noPair_append h8 (noPair_of_not_mem_x (by decide))
      (fun hlast => by
        obtain ⟨d, hd, hdig⟩ := intRepr_getLast h.mem_gb
        rw [getLast_append_list hd] at hlast
        have hdn : d = 'n' := Option.some.inj hlast
        rw [hdn] at hdig
        exact absurd hdig (by decide))
  have h10 : noPair 'n' 'g' (_ ++ ("" : String).data) :=
    noPair_append h9 (noPair_of_not_mem_x (by decide))
      (fun _ hh => by rw [data_empty] at hh; exact absurd hh (by decide))
  rcases hm : h.gpu_mem_gb with _ | g
  · simp only [data_append, pbs_gpu_mem_str]
    exact noPair_append h10 (noPair_of_not_mem_x (by simp))
      (fun _ hh => by simp at hh)
  · simp only [data_append, pbs_gpu_mem_str]
    refine noPair_append h10 ?_ ?_
    · apply noPair_of_not_mem_x
      intro hc
      rcases List.mem_append.mp hc with hc1 | hc1
      · rcases List.mem_append.mp hc1 with hc2 | hc2
        · exact absurd hc2 (by decide)
        · exact char_not_in_intRepr _ (by decide) (by decide) hc2
      · exact absurd hc1 (by decide)
    · intro _ hh
      rw [head_append_list (head_append_list
        (by decide : (":gpu_mem=".data).head? = some ':'))] at hh
      exact absurd hh (by decide)

/-- With no GPU memory requested, the PBS resource-selection line
contains no underscore at all, hence no `:gpu_mem=` clause. -/
theorem pbs_no_gpu_mem (h : HeaderArgs) (hm : h.gpu_mem_gb = none) :
    ¬ (":gpu_mem=".data <:+: (pbs_resource_line h).data) := by
  intro hinf
  have hmem : '_' ∈ (pbs_resource_line h).data :=
    mem_of_infix hinf (by decide)
  revert hmem
  unfold pbs_resource_line pbs_gpu_str
  rw [hm]
  simp only [pbs_gpu_mem_str]
  by_cases hg : 0 < h.gpus
  · rw [if_pos hg]
    intro hmem
    simp only [data_append, List.mem_append] at hmem
    rcases hmem with
      (((((((((hc | hc) | hc) | hc) | hc) | hc) | hc) | hc) | hc) |
        (hc | hc)) | hc
    · exact absurd hc (by decide)
    · exact char_not_in_format _ (by decide) (by decide) (by decide) hc
    · exact absurd hc (by decide)
    · exact char_not_in_intRepr _ (by decide) (by decide) hc
    · exact absurd hc (by decide)
    · exact char_not_in_intRepr _ (by decide) (by decide) hc
    · exact absurd hc (by decide)
    · exact char_not_in_intRepr _ (by decide) (by decide) hc
    · exact absurd hc (by decide)
    · exact absurd hc (by decide)
    · exact char_not_in_intRepr _ (by decide) (by decide) hc
    · simp at hc
  · rw [if_neg hg]
    intro hmem
    simp only [data_append, List.mem_append] at hmem
    rcases hmem with
      (((((((((hc | hc) | hc) | hc) | hc) | hc) | hc) | hc) | hc) | hc) | hc
    · exact absurd hc (by decide)
    · exact char_not_in_format _ (by decide) (by decide) (by decide) hc
    · exact absurd hc (by decide)
    · exact char_not_in_intRepr _ (by decide) (by decide) hc
    · exact absurd hc (by decide)
    · exact char_not_in_intRepr _ (by decide) (by decide) hc
    · exact absurd hc (by decide)
    · exact char_not_in_intRepr _ (by decide) (by decide) hc
    · exact absurd hc (by decide)
    · simp at hc
    · simp at hc

/-- With `gpus` positive, the `:ngpus=` clause occurs in the PBS
resource-selection line. -/
theorem pbs_ngpus_occurs (h : HeaderArgs) (hg : 0 < h.gpus) :
    ":ngpus=".data <:+: (pbs_resource_line h).data := by
  refine ⟨("#PBS -l walltime=" ++ format_walltime_str h.walltime_mins ++
      ",select=" ++ intRepr h.nodes ++ ":ncpus=" ++ intRepr h.cpus ++
      ":mem=" ++ intRepr h.mem_gb ++ "gb").data,
    (intRepr h.gpus).data ++ (pbs_gpu_mem_str h.gpu_mem_gb).data, ?_⟩
  unfold pbs_resource_line pbs_gpu_str
  rw [if_pos hg]
  simp [data_append, List.append_assoc]

/-- With GPU memory requested, the `:gpu_mem=` clause occurs in the PBS
resource-selection line. -/
theorem pbs_gpu_mem_occurs (h : HeaderArgs) {g : Int}
    (hm : h.gpu_mem_gb = some g) :
    ":gpu_mem=".data <:+: (pbs_resource_line h).data := by
  refine ⟨("#PBS -l walltime=" ++ format_walltime_str h.walltime_mins ++
      ",select=" ++ intRepr h.nodes ++ ":ncpus=" ++ intRepr h.cpus ++
      ":mem=" ++ intRepr h.mem_gb ++ "gb").data ++
      (pbs_gpu_str h.gpus).data,
    (intRepr g).data ++ "gb".data, ?_⟩
  unfold pbs_resource_line
  rw [hm]
  simp only [pbs_gpu_mem_str]
  simp [data_append, List.append_assoc]

/-- Counterexample for C3: the claim quantifies over both cited
`get_header` implementations, but the `__init__.py` Slurm variant emits
the GPU-count directive unconditionally — its header at `gpus = 0`
contains the line `#SBATCH --gres=gpu:0`. -/
theorem claim_C3_counterexample :
    ∃ a b : String,
      init_get_header "j" "a" (some "o") 60 1 1 16 0 none none true =
        a ++ "#SBATCH --gres=gpu:0" ++ b :=
  ⟨"#!/bin/bash\n#SBATCH --time=01:00:00\n#SBATCH --nodes=1\n" ++
    "#SBATCH --ntasks-per-node=1\n",
   "\n#SBATCH --mem=16gb\n\n#SBATCH --job-name=j\n#SBATCH --account=a\n" ++
    "#SBATCH --output=o/%x-%j.txt\n",
   by rfl⟩

/-- C3 (amended): in every header produced by the `utils.py`
`get_header` — both scheduler variants — the GPU-memory
directive/clause appears exactly when `gpu_mem_gb` is given, and the
GPU-count directive/clause exactly when `gpus` is strictly positive (so
`gpus = 0` yields no GPU-count directive); the legacy `__init__.py`
Slurm variant instead emits `--gres=gpu:N` unconditionally. -/
theorem claim_C3_gpu_directives (h : HeaderArgs) :
    ((∃ l ∈ slurm_lines h, "#SBATCH --gres=gpu:".data <+: l.data) ↔ 0 < h.gpus)
    ∧ ((∃ l ∈ slurm_lines h, "#SBATCH --mem-per-gpu=".data <+: l.data) ↔
        h.gpu_mem_gb ≠ none)
    ∧ ((":ngpus=".data <:+: (pbs_resource_line h).data) ↔ 0 < h.gpus)
    ∧ ((":gpu_mem=".data <:+: (pbs_resource_line h).data) ↔
        h.gpu_mem_gb ≠ none) := by
  refine ⟨⟨?_, ?_⟩, ⟨?_, ?_⟩, ⟨?_, ?_⟩, ⟨?_, ?_⟩⟩
  · rintro ⟨l, hl, hp⟩
    by_contra hg
    exact slurm_no_gres_line h hg l hl hp
  · intro hg
    refine ⟨"#SBATCH --gres=gpu:" ++ intRepr h.gpus, ?_, ?_⟩
    · unfold slurm_lines
      rw [if_pos hg]
      simp [List.mem_append]
    · exact ⟨(intRepr h.gpus).data, by rw [data_append]⟩
  · rintro ⟨l, hl, hp⟩
    intro hm
    exact slurm_no_mpg_line h hm l hl hp
  · intro hm
    rcases hmg : h.gpu_mem_gb with _ | g
    · exact absurd hmg hm
    refine ⟨"#SBATCH --mem-per-gpu=" ++ intRepr g ++ "gb", ?_, ?_⟩
    · unfold slurm_lines
      rw [hmg]
      simp [List.mem_append]
    · exact prefix_str2 "#SBATCH --mem-per-gpu=" (intRepr g) "gb"
  · intro hinf
    by_contra hg
    exact pbs_no_ngpus h hg hinf
  · exact pbs_ngpus_occurs h
  · intro hinf
    by_contra hm
    exact pbs_no_gpu_mem h hm hinf
  · intro hm
    rcases hmg : h.gpu_mem_gb with _ | g
    · exact absurd hmg hm
    · exact pbs_gpu_mem_occurs h hmg

/-- Witness for C3's amended theorem: with two GPUs requested the gres
line occurs among the Slurm header lines. -/
theorem claim_C3_gpu_directives_witness :
    ∃ l ∈ slurm_lines { exampleArgs with gpus := 2 },
      "#SBATCH --gres=gpu:".data <+: l.data :=
  (claim_C3_gpu_directives { exampleArgs with gpus := 2 }).1.mpr (by decide)

end ClusterUtils
